import Mathlib

/-!
Shallow embedding of the SAS-to-Polars streaming bridge in
`src/crates/cpp-sas7bdat/src/lib.rs`.

The decoding engine behind the C FFI (`sas_arrow_reader_*`) is modelled as a
pure transport value holding the raw schema fetch result and the underlying
list of raw batches; the bridge functions (`get_schema_info`,
`read_next_batch`, `read_batch`, the `SasBatchIterator`) are translated
arm by arm from the Rust source.  Every operation additionally returns the
list of observable FFI events (physical schema fetches, batch fetches, and
release-callback invocations) so that caching, fetch-count and
ownership/release properties can be stated.
-/

/-- Arrow time units, as in `polars_arrow::datatypes::TimeUnit`. -/
inductive ArrowTimeUnit
  | second
  | millisecond
  | microsecond
  | nanosecond
  deriving DecidableEq, Repr

/-- Polars time units, as in `polars::prelude::TimeUnit` (no seconds variant). -/
inductive PolarsTimeUnit
  | milliseconds
  | microseconds
  | nanoseconds
  deriving DecidableEq, Repr

/-- The Arrow physical data types distinguished by `arrow_dtype_to_polars`
(lib.rs lines 384-423).  Every physical type hit by the Rust wildcard arm
`_ =>` is modelled by the `other` constructor, carrying the debug name that
Rust would print with `{:?}`. -/
inductive ArrowDataType
  | utf8
  | largeUtf8
  | int64
  | float64
  | timestamp (unit : ArrowTimeUnit) (tz : Option String)
  | date32
  | time64 (unit : ArrowTimeUnit)
  | other (debugName : String)
  deriving DecidableEq, Repr

/-- Polars semantic data types produced by the bridge. -/
inductive DataType
  | string
  | int64
  | float64
  | datetime (unit : PolarsTimeUnit) (tz : Option String)
  | date
  | time
  deriving DecidableEq, Repr

/-- Debug rendering of an Arrow type, standing for Rust `{:?}` in the
unsupported-type error message. -/
def ArrowDataType.debugFmt : ArrowDataType → String
  | .utf8 => "Utf8"
  | .largeUtf8 => "LargeUtf8"
  | .int64 => "Int64"
  | .float64 => "Float64"
  | .timestamp _ _ => "Timestamp"
  | .date32 => "Date32"
  | .time64 _ => "Time64"
  | .other nm => nm

/-- Errors surfaced by the bridge.  All `PolarsError` variants built in
lib.rs carry a display message and the iterator only inspects that message,
so the model keeps just the message text. -/
structure PolarsErr where
  msg : String
  deriving DecidableEq, Repr

/-- The time-unit normalization applied inside the `Timestamp` arm of
`arrow_dtype_to_polars` (lib.rs lines 399-404): second resolution is
upgraded to millisecond, the rest are kept. -/
def normalizeTimestampUnit : ArrowTimeUnit → PolarsTimeUnit
  | .microsecond => .microseconds
  | .nanosecond => .nanoseconds
  | .millisecond => .milliseconds
  | .second => .milliseconds

/-- `SasReader::arrow_dtype_to_polars` (lib.rs lines 384-423), arm by arm. -/
def arrow_dtype_to_polars : ArrowDataType → Except PolarsErr DataType
  | .utf8 => .ok .string
  | .largeUtf8 => .ok .string
  | .int64 => .ok .int64
  | .float64 => .ok .float64
  | .timestamp unit _ => .ok (.datetime (normalizeTimestampUnit unit) none)
  | .date32 => .ok .date
  | .time64 _ => .ok .time
  | t => .error ⟨"Unsupported SAS Arrow data type: " ++ t.debugFmt⟩

/-- One child field of the imported struct schema: a column name plus its
Arrow physical type. -/
structure ArrowField where
  name : String
  dtype : ArrowDataType
  deriving DecidableEq, Repr

/-- The data type of a field imported through `import_field_from_c`: either a
struct with the table's columns as children, or some non-struct type
(the latter is rejected by the bridge). -/
inductive ImportedDType
  | strct (fields : List ArrowField)
  | prim (t : ArrowDataType)
  deriving DecidableEq, Repr

/-- A field imported from the C schema (`polars_arrow::datatypes::Field`). -/
structure ImportedField where
  name : String
  dtype : ImportedDType
  deriving DecidableEq, Repr

/-- A Polars schema: the ordered column list produced by
`Schema::from_iter`.  In the model it is the association list in its
iteration order. -/
abbrev PolarsSchema := List (String × DataType)

/-- Strict order on characters by code point (UTF-8 byte order and code-point
order coincide). -/
def charLtb (a b : Char) : Bool := a.toNat < b.toNat

/-- Lexicographic strict order on character lists, modelling Rust's `Ord`
for `String` (byte-wise lexicographic comparison). -/
def charListLtb : List Char → List Char → Bool
  | [], [] => false
  | [], _ :: _ => true
  | _ :: _, [] => false
  | a :: as, b :: bs =>
    if charLtb a b then true
    else if charLtb b a then false
    else charListLtb as bs

/-- Rust's `String` ordering used by `BTreeMap<String, _>`. -/
def strLtb (a b : String) : Bool := charListLtb a.data b.data

/-- Insertion into a `std::collections::BTreeMap<String, DataType>` keyed by
column name: keys are kept in ascending order and an equal key replaces the
stored value (Rust `BTreeMap::insert`). -/
def btreeInsert (k : String) (v : DataType) : List (String × DataType) → List (String × DataType)
  | [] => [(k, v)]
  | (k₀, v₀) :: rest =>
    if strLtb k k₀ then (k, v) :: (k₀, v₀) :: rest
    else if strLtb k₀ k then (k₀, v₀) :: btreeInsert k v rest
    else (k, v) :: rest

/-- The loop of `arrow_schema_to_polars_schema` (lib.rs lines 373-377):
convert each struct field's dtype (early-returning on error with `?`) and
insert it into the `BTreeMap` accumulator. -/
def buildSchemaMap : List ArrowField → List (String × DataType) → Except PolarsErr (List (String × DataType))
  | [], m => .ok m
  | f :: rest, m =>
    match arrow_dtype_to_polars f.dtype with
    | .error e => .error e
    | .ok dt => buildSchemaMap rest (btreeInsert f.name dt m)

/-- `SasReader::arrow_schema_to_polars_schema` (lib.rs lines 359-381): the
imported field must be a struct; its children are converted into a
`BTreeMap` and the resulting Polars schema is returned together with the
imported Arrow field (cached for batch decoding). -/
def arrow_schema_to_polars_schema (field : ImportedField) : Except PolarsErr (PolarsSchema × ImportedField) :=
  match field.dtype with
  | .strct fields =>
    match buildSchemaMap fields [] with
    | .error e => .error e
    | .ok m => .ok (m, field)
  | .prim _ => .error ⟨"Expected struct data type from SAS data"⟩

/-- View of an `Except` value as a sum, used to derive decidable equality. -/
def Except.toSum {ε α : Type} : Except ε α → ε ⊕ α
  | .error e => .inl e
  | .ok a => .inr a

instance {ε α : Type} [DecidableEq ε] [DecidableEq α] : DecidableEq (Except ε α) := fun a b =>
  decidable_of_iff (a.toSum = b.toSum) (by cases a <;> cases b <;> simp [Except.toSum])

example : arrow_dtype_to_polars .int64 = .ok .int64 := by rfl

example : arrow_schema_to_polars_schema ⟨"", .strct [⟨"b", .float64⟩, ⟨"a", .utf8⟩]⟩
    = .ok ([("a", .string), ("b", .float64)], ⟨"", .strct [⟨"b", .float64⟩, ⟨"a", .utf8⟩]⟩) := by
  decide

/-! ## Transport and reader model

The C FFI engine behind `sas_arrow_reader_*` is modelled as a pure value:
the result of the (single) physical schema fetch, and the underlying list
of raw batches shared by sequential (`sas_arrow_reader_next_batch`) and
random access (`sas_arrow_reader_get_batch_with_schema`).  The forward
cursor belongs to the engine and is advanced only by `next_batch`.

Observable FFI effects are recorded as an event trace so that fetch counts
and release-callback invocations can be reasoned about. -/

/-- Identity of a foreign-owned buffer handed across the FFI boundary. -/
inductive BufferId
  | topSchema
  | batchArray (id : Nat)
  | batchSchema (index : Nat)
  deriving DecidableEq, Repr

/-- Observable FFI events. -/
inductive Event
  | fetchSchema
  | fetchNext
  | fetchByIndex (index : Nat)
  | release (buf : BufferId)
  deriving DecidableEq, Repr

/-- One column's cell values; the scalar payloads are irrelevant to the
claims, so cells are plain integers. -/
abbrev Column := List Int

/-- A raw engine-owned batch buffer: an identity for its release callback
plus its child column buffers. -/
structure RawBatch where
  id : Nat
  columns : List Column
  deriving DecidableEq, Repr

/-- A decoded Polars `DataFrame`: named columns in order. -/
abbrev DataFrame := List (String × Column)

/-- Result of the engine's physical schema fetch
(`sas_arrow_reader_get_schema` followed by `import_field_from_c`):
either the engine fails before exporting anything (no ownership is
transferred), or a schema buffer is exported (its release becomes due) and
the import then yields a field or fails. -/
inductive SchemaFetchResult
  | engineError (e : PolarsErr)
  | fetched (imported : Except PolarsErr ImportedField)
  deriving DecidableEq, Repr

/-- The engine state owned by the bridge: schema fetch behaviour, the
underlying batches (each possibly an injected engine error), and the
forward cursor. -/
structure Transport where
  rawSchema : SchemaFetchResult
  batches : List (Except PolarsErr RawBatch)
  cursor : Nat
  deriving DecidableEq, Repr

/-- `SasArrowReaderInfo` (lib.rs lines 24-29); the `u32`/`u64` fields are
naturals, with wrap-around made explicit where the code can underflow. -/
structure SasArrowReaderInfo where
  num_rows : Nat
  num_columns : Nat
  num_batches : Nat
  chunk_size : Nat
  deriving DecidableEq, Repr

/-- `SasReader` (lib.rs lines 137-142): the engine handle (here: the whole
modelled transport), the info block read at open time, and the two caches. -/
structure SasReader where
  transport : Transport
  info : SasArrowReaderInfo
  cached_schema : Option PolarsSchema
  cached_arrow_field : Option ImportedField
  deriving DecidableEq, Repr

/-- The column loop of `arrow_to_dataframe_with_field` (lib.rs lines
329-336): column `i` is `struct_array.values()[i]` named after struct
field `i` (Rust would panic if the array had fewer children than the
schema has fields; the model reads a missing child as an empty column). -/
def decodeStructBatch (fields : List ArrowField) (b : RawBatch) : DataFrame :=
  fields.enum.map (fun p => (p.2.name, b.columns.getD p.1 []))

/-- `SasReader::arrow_to_dataframe_with_field` (lib.rs lines 309-340).
The Rust body takes ownership of the raw array via `ptr::read`; the owned
FFI wrapper (and, after `import_array_from_c`, the imported array that the
decoded batch no longer depends on) invokes the buffer's release callback
exactly once on the struct-mismatch error path and on the success path, so
both paths emit one `release` event. -/
def arrow_to_dataframe_with_field (field : ImportedField) (b : RawBatch) :
    Except PolarsErr DataFrame × List Event :=
  match field.dtype with
  | .strct fields =>
    (.ok (decodeStructBatch fields b), [.release (.batchArray b.id)])
  | .prim _ =>
    (.error ⟨"Expected struct data type from SAS data"⟩, [.release (.batchArray b.id)])

/-- `SasReader::get_schema_info` (lib.rs lines 187-211): on a cache miss,
perform the physical schema fetch; on engine error return it (nothing was
exported, nothing to release); otherwise the exported schema buffer is
owned by the conversion, which releases it exactly once on every path
(`arrow_schema_to_polars_schema` reads it with `ptr::read_unaligned` into a
dropping wrapper); on successful conversion both caches are filled.  A
cache hit returns the cached schema with no FFI activity. -/
def SasReader.get_schema_info (r : SasReader) :
    Except PolarsErr PolarsSchema × SasReader × List Event :=
  match r.cached_schema with
  | some s => (.ok s, r, [])
  | none =>
    match r.transport.rawSchema with
    | .engineError e => (.error e, r, [.fetchSchema])
    | .fetched imported =>
      match imported with
      | .error e => (.error e, r, [.fetchSchema, .release .topSchema])
      | .ok field =>
        match arrow_schema_to_polars_schema field with
        | .error e => (.error e, r, [.fetchSchema, .release .topSchema])
        | .ok (ps, fld) =>
          (.ok ps,
           { r with cached_schema := some ps, cached_arrow_field := some fld },
           [.fetchSchema, .release .topSchema])

/-- Fallback imported field for the model of Rust's
`self.cached_arrow_field.as_ref().unwrap()`: unreachable whenever
`get_schema_info` succeeded (Rust would panic otherwise). -/
def emptyImportedField : ImportedField := ⟨"", .prim .float64⟩

/-- `SasReader::read_next_batch` (lib.rs lines 251-274): ensure the schema
is cached, call `sas_arrow_reader_next_batch` (advancing the engine's
forward cursor), turn `EndOfData` into the dedicated message, propagate
other engine errors, and decode a fetched batch with the cached field. -/
def SasReader.read_next_batch (r : SasReader) :
    Except PolarsErr DataFrame × SasReader × List Event :=
  match r.get_schema_info with
  | (.error e, r₁, ev₁) => (.error e, r₁, ev₁)
  | (.ok _, r₁, ev₁) =>
    let fetched := r₁.transport.batches.get? r₁.transport.cursor
    let r₂ := { r₁ with transport := { r₁.transport with cursor := r₁.transport.cursor + 1 } }
    match fetched with
    | none => (.error ⟨"End of data reached"⟩, r₂, ev₁ ++ [.fetchNext])
    | some (.error e) => (.error e, r₂, ev₁ ++ [.fetchNext])
    | some (.ok b) =>
      let dec := arrow_to_dataframe_with_field (r₂.cached_arrow_field.getD emptyImportedField) b
      (dec.1, r₂, ev₁ ++ [.fetchNext] ++ dec.2)

/-- `(num_batches : u32) - 1` as the Rust subtraction behaves in release
mode: wrap-around modulo `2^32` (in debug mode the same expression panics
on underflow). -/
def u32WrapSubOne (n : Nat) : Nat := (n + 4294967295) % 4294967296

/-- The out-of-range message built at lib.rs line 280. -/
def outOfRangeMsg (i maxIdx : Nat) : String :=
  "Batch index " ++ toString i ++ " out of range (max: " ++ toString maxIdx ++ ")"

/-- `SasReader::read_batch` (lib.rs lines 277-306): bounds check against
`info.num_batches` before any FFI call; then ensure the schema is cached
and call `sas_arrow_reader_get_batch_with_schema`, which exports the i-th
batch array together with a fresh per-batch schema descriptor.  The array
is decoded with the cached field (releasing it exactly once), but the
per-batch `CArrowSchema` filled at lib.rs line 288 is a plain `repr(C)`
struct with no `Drop` impl and is never passed to any importing or
releasing function, so no `release (batchSchema i)` event is ever emitted:
that descriptor's release callback is never invoked.  The random-access
path does not touch the forward cursor. -/
def SasReader.read_batch (r : SasReader) (batch_index : Nat) :
    Except PolarsErr DataFrame × SasReader × List Event :=
  if batch_index ≥ r.info.num_batches then
    (.error ⟨outOfRangeMsg batch_index (u32WrapSubOne r.info.num_batches)⟩, r, [])
  else
    match r.get_schema_info with
    | (.error e, r₁, ev₁) => (.error e, r₁, ev₁)
    | (.ok _, r₁, ev₁) =>
      match r₁.transport.batches.get? batch_index with
      | none =>
        (.error ⟨"Invalid batch index"⟩, r₁, ev₁ ++ [.fetchByIndex batch_index])
      | some (.error e) => (.error e, r₁, ev₁ ++ [.fetchByIndex batch_index])
      | some (.ok b) =>
        let dec := arrow_to_dataframe_with_field (r₁.cached_arrow_field.getD emptyImportedField) b
        (dec.1, r₁, ev₁ ++ [.fetchByIndex batch_index] ++ dec.2)

/-- `SasReader::reset` (lib.rs lines 426-434): rewind the engine's forward
cursor to batch 0; the cached schema is untouched. -/
def SasReader.reset (r : SasReader) : SasReader :=
  { r with transport := { r.transport with cursor := 0 } }

/-! ## Streaming iterator -/

/-- Boolean test: does `pat` occur at the start of `l`? -/
def charListStartsWith : List Char → List Char → Bool
  | [], _ => true
  | _ :: _, [] => false
  | a :: as, b :: bs => a == b && charListStartsWith as bs

/-- Boolean test: does `pat` occur somewhere inside `l`? -/
def charListHasSub (pat : List Char) : List Char → Bool
  | [] => charListStartsWith pat []
  | c :: cs => charListStartsWith pat (c :: cs) || charListHasSub pat cs

/-- Model of Rust `str::contains` with a literal pattern, as used by
`e.to_string().contains(...)` in `SasBatchIterator::next`. -/
def strContains (hay pat : String) : Bool := charListHasSub pat.data hay.data

/-- The substring the iterator looks for (lib.rs line 545). -/
def endOfDataMarker : String := "End of data"

/-- `SasBatchIterator` (lib.rs lines 508-511). -/
structure SasBatchIterator where
  reader : SasReader
  finished : Bool
  deriving DecidableEq, Repr

/-- `<SasBatchIterator as Iterator>::next` (lib.rs lines 537-554): once
`finished`, always `none` with no FFI activity; otherwise delegate to
`read_next_batch`; an error whose display text contains the end-of-data
marker ends the stream silently, any other error is surfaced and also ends
the stream. -/
def SasBatchIterator.next (it : SasBatchIterator) :
    Option (Except PolarsErr DataFrame) × SasBatchIterator × List Event :=
  if it.finished then (none, it, [])
  else
    match it.reader.read_next_batch with
    | (.ok df, r₁, ev) => (some (.ok df), ⟨r₁, false⟩, ev)
    | (.error e, r₁, ev) =>
      if strContains e.msg endOfDataMarker then (none, ⟨r₁, true⟩, ev)
      else (some (.error e), ⟨r₁, true⟩, ev)

/-- Run the iterator `n` times, collecting the produced items, the final
iterator state, and the concatenated event trace. -/
def runIter : SasBatchIterator → Nat → List (Option (Except PolarsErr DataFrame)) × SasBatchIterator × List Event
  | it, 0 => ([], it, [])
  | it, n + 1 =>
    match it.next with
    | (o, it₁, ev) =>
      match runIter it₁ n with
      | (os, it₂, evs) => (o :: os, it₂, ev ++ evs)

/-- Call `read_next_batch` repeatedly, returning the result of the
`(n+1)`-th call together with the reader state after it. -/
def readNextN : SasReader → Nat → Except PolarsErr DataFrame × SasReader
  | r, 0 =>
    match r.read_next_batch with
    | (res, r₁, _) => (res, r₁)
  | r, n + 1 =>
    match r.read_next_batch with
    | (_, r₁, _) => readNextN r₁ n

example : strContains ("End of data reached") endOfDataMarker = true := by decide

example : strContains ("Out of memory: boom") endOfDataMarker = false := by decide

/-! ## Order lemmas for the BTreeMap model -/

lemma charToNat_inj {a b : Char} (h : a.toNat = b.toNat) : a = b :=
  Char.ofNat_toNat a ▸ Char.ofNat_toNat b ▸ congrArg Char.ofNat h

lemma charLtb_trans {a b c : Char} (h₁ : charLtb a b = true) (h₂ : charLtb b c = true) :
    charLtb a c = true := by
  simp only [charLtb, decide_eq_true_eq] at h₁ h₂ ⊢
  omega

lemma charLtb_eq_of_not {a b : Char} (h₁ : charLtb a b = false) (h₂ : charLtb b a = false) :
    a = b := by
  simp only [charLtb, decide_eq_false_iff_not, Nat.not_lt] at h₁ h₂
  exact charToNat_inj (Nat.le_antisymm h₂ h₁)

lemma charListLtb_nonempty {b : List Char} (h : charListLtb [] b = true) :
    ∃ x xs, b = x :: xs := by
  cases b with
  | nil => simp [charListLtb] at h
  | cons x xs => exact ⟨x, xs, rfl⟩

lemma charListLtb_eq_of_not :
    ∀ {a b : List Char}, charListLtb a b = false → charListLtb b a = false → a = b
  | [], [], _, _ => rfl
  | [], _ :: _, h₁, _ => by simp [charListLtb] at h₁
  | _ :: _, [], _, h₂ => by simp [charListLtb] at h₂
  | a :: as, b :: bs, h₁, h₂ => by
    simp only [charListLtb] at h₁ h₂
    by_cases hab : charLtb a b = true
    · simp [hab] at h₁
    · by_cases hba : charLtb b a = true
      · simp [hba] at h₂
      · have hab' : charLtb a b = false := by simpa using hab
        have hba' : charLtb b a = false := by simpa using hba
        simp only [hab', hba', if_false, Bool.false_eq_true] at h₁ h₂
        have hchar := charLtb_eq_of_not hab' hba'
        have htail := charListLtb_eq_of_not h₁ h₂
        rw [hchar, htail]

lemma charListLtb_trans :
    ∀ {a b c : List Char}, charListLtb a b = true → charListLtb b c = true →
      charListLtb a c = true
  | [], b, c, h₁, h₂ => by
    obtain ⟨y, ys, rfl⟩ := charListLtb_nonempty h₁
    cases c with
    | nil => simp [charListLtb] at h₂
    | cons z zs => simp [charListLtb]
  | _ :: _, [], _, h₁, _ => by simp [charListLtb] at h₁
  | _ :: _, _ :: _, [], _, h₂ => by simp [charListLtb] at h₂
  | a :: as, b :: bs, c :: cs, h₁, h₂ => by
    simp only [charListLtb] at h₁ h₂ ⊢
    by_cases hab : charLtb a b = true
    · by_cases hbc : charLtb b c = true
      · simp [charLtb_trans hab hbc]
      · have hbc' : charLtb b c = false := by simpa using hbc
        by_cases hcb : charLtb c b = true
        · simp [hbc', hcb] at h₂
        · have hcb' : charLtb c b = false := by simpa using hcb
          have : b = c := charLtb_eq_of_not hbc' hcb'
          subst this
          simp [hab]
    · by_cases hba : charLtb b a = true
      · simp [hab, hba] at h₁
      · have hab' : charLtb a b = false := by simpa using hab
        have hba' : charLtb b a = false := by simpa using hba
        have : a = b := charLtb_eq_of_not hab' hba'
        subst this
        simp only [hab', if_false, Bool.false_eq_true] at h₁
        by_cases hac : charLtb a c = true
        · simp [hac]
        · have hac' : charLtb a c = false := by simpa using hac
          by_cases hca : charLtb c a = true
          · simp [hac', hca] at h₂
          · have hca' : charLtb c a = false := by simpa using hca
            simp only [hac', hca', if_false, Bool.false_eq_true] at h₂ ⊢
            exact charListLtb_trans h₁ h₂

lemma strLtb_trans {a b c : String} (h₁ : strLtb a b = true) (h₂ : strLtb b c = true) :
    strLtb a c = true := charListLtb_trans h₁ h₂

lemma strLtb_eq_of_not {a b : String} (h₁ : strLtb a b = false) (h₂ : strLtb b a = false) :
    a = b := by
  have hd : a.data = b.data := charListLtb_eq_of_not h₁ h₂
  exact congrArg String.mk hd

/-- Keys of a schema map in iteration order. -/
def schemaKeys (m : List (String × DataType)) : List String := m.map Prod.fst

/-- Ascending key order, the `BTreeMap` iteration invariant. -/
def keysAscending (ks : List String) : Prop :=
  List.Pairwise (fun a b => strLtb a b = true) ks

instance (ks : List String) : Decidable (keysAscending ks) := by
  unfold keysAscending
  infer_instance

lemma mem_schemaKeys_btreeInsert (k x : String) (v : DataType) :
    ∀ m : List (String × DataType),
      (x ∈ schemaKeys (btreeInsert k v m) ↔ x = k ∨ x ∈ schemaKeys m)
  | [] => by simp [btreeInsert, schemaKeys]
  | (k₀, v₀) :: rest => by
    by_cases h₁ : strLtb k k₀ = true
    · simp [btreeInsert, h₁, schemaKeys]
    · have h₁' : strLtb k k₀ = false := by simpa using h₁
      by_cases h₂ : strLtb k₀ k = true
      · have ih := mem_schemaKeys_btreeInsert k x v rest
        simp only [btreeInsert, h₁', h₂, if_false, if_true, Bool.false_eq_true, schemaKeys,
          List.map_cons, List.mem_cons] at ih ⊢
        rw [ih]
        tauto
      · have h₂' : strLtb k₀ k = false := by simpa using h₂
        have : k = k₀ := strLtb_eq_of_not h₁' h₂'
        subst this
        simp [btreeInsert, h₁', schemaKeys]

lemma keysAscending_btreeInsert (k : String) (v : DataType) :
    ∀ m : List (String × DataType), keysAscending (schemaKeys m) →
      keysAscending (schemaKeys (btreeInsert k v m))
  | [], _ => by simp [btreeInsert, schemaKeys, keysAscending]
  | (k₀, v₀) :: rest, h => by
    simp only [schemaKeys, List.map_cons, keysAscending, List.pairwise_cons] at h
    obtain ⟨hk₀, hrest⟩ := h
    by_cases h₁ : strLtb k k₀ = true
    · simp only [btreeInsert, h₁, if_true, schemaKeys, List.map_cons, keysAscending,
        List.pairwise_cons, List.mem_cons]
      refine ⟨?_, ?_, hrest⟩
      · intro b hb
        rcases hb with hb | hb
        · exact hb ▸ h₁
        · exact strLtb_trans h₁ (hk₀ b hb)
      · exact hk₀
    · have h₁' : strLtb k k₀ = false := by simpa using h₁
      by_cases h₂ : strLtb k₀ k = true
      · have ih := keysAscending_btreeInsert k v rest hrest
        simp only [btreeInsert, h₁', h₂, if_false, if_true, Bool.false_eq_true, schemaKeys,
          List.map_cons, keysAscending, List.pairwise_cons]
        refine ⟨?_, ih⟩
        intro b hb
        have := (mem_schemaKeys_btreeInsert k b v rest).mp hb
        rcases this with hb' | hb'
        · exact hb' ▸ h₂
        · exact hk₀ b hb'
      · have h₂' : strLtb k₀ k = false := by simpa using h₂
        have hk : k = k₀ := strLtb_eq_of_not h₁' h₂'
        subst hk
        simp only [btreeInsert, h₁', if_false, Bool.false_eq_true, schemaKeys, List.map_cons,
          keysAscending, List.pairwise_cons]
        exact ⟨hk₀, hrest⟩

lemma buildSchemaMap_ok_invariant :
    ∀ (flds : List ArrowField) (m out : List (String × DataType)),
      buildSchemaMap flds m = .ok out →
      (keysAscending (schemaKeys m) → keysAscending (schemaKeys out)) ∧
      (∀ x, x ∈ schemaKeys out ↔ x ∈ flds.map ArrowField.name ∨ x ∈ schemaKeys m)
  | [], m, out, h => by
    simp only [buildSchemaMap, Except.ok.injEq] at h
    subst h
    exact ⟨fun h => h, by simp⟩
  | f :: rest, m, out, h => by
    simp only [buildSchemaMap] at h
    cases hconv : arrow_dtype_to_polars f.dtype with
    | error e => rw [hconv] at h; exact absurd h (by simp)
    | ok dt =>
      rw [hconv] at h
      have ih := buildSchemaMap_ok_invariant rest (btreeInsert f.name dt m) out h
      refine ⟨fun hm => ih.1 (keysAscending_btreeInsert f.name dt m hm), ?_⟩
      intro x
      rw [ih.2 x, mem_schemaKeys_btreeInsert]
      simp only [List.map_cons, List.mem_cons]
      tauto

/-! ## Shared evaluation lemmas -/

/-- A cache hit in `get_schema_info` returns the cached schema with no FFI
activity (lib.rs lines 188 and 210). -/
lemma get_schema_info_cached (r : SasReader) (s : PolarsSchema)
    (h : r.cached_schema = some s) : r.get_schema_info = (.ok s, r, []) := by
  simp [SasReader.get_schema_info, h]

/-- `arrow_schema_to_polars_schema` always returns its argument as the
cached raw descriptor. -/
lemma arrow_schema_to_polars_schema_snd (f : ImportedField) (p : PolarsSchema × ImportedField)
    (h : arrow_schema_to_polars_schema f = .ok p) : p.2 = f := by
  cases hd : f.dtype with
  | strct fields =>
    simp only [arrow_schema_to_polars_schema, hd] at h
    cases hb : buildSchemaMap fields [] with
    | error e => rw [hb] at h; exact absurd h (by simp)
    | ok m =>
      rw [hb] at h
      simp only [Except.ok.injEq] at h
      rw [← h]
  | prim t => simp [arrow_schema_to_polars_schema, hd] at h

/-- Fineness rank of an Arrow timestamp unit. -/
def arrowUnitFineness : ArrowTimeUnit → Nat
  | .second => 0
  | .millisecond => 1
  | .microsecond => 2
  | .nanosecond => 3

/-- Fineness rank of a Polars time unit, on the same scale. -/
def polarsUnitFineness : PolarsTimeUnit → Nat
  | .milliseconds => 1
  | .microseconds => 2
  | .nanoseconds => 3

/-! ## Claim theorems -/

/-- C7: every physical timestamp type resolves to a `Datetime` semantic
type; second resolution is upgraded to millisecond while millisecond,
microsecond and nanosecond are kept unchanged, and the resulting unit is
never coarser than the source unit. -/
theorem c7_timestamp_unit_normalized :
    ∀ (u : ArrowTimeUnit) (tz : Option String),
      arrow_dtype_to_polars (.timestamp u tz) = .ok (.datetime (normalizeTimestampUnit u) none) ∧
      arrowUnitFineness u ≤ polarsUnitFineness (normalizeTimestampUnit u) ∧
      normalizeTimestampUnit .second = .milliseconds ∧
      normalizeTimestampUnit .millisecond = .milliseconds ∧
      normalizeTimestampUnit .microsecond = .microseconds ∧
      normalizeTimestampUnit .nanosecond = .nanoseconds := by
  intro u tz
  refine ⟨rfl, ?_, rfl, rfl, rfl, rfl⟩
  cases u <;> decide

/-- C8: an out-of-range batch index is rejected by `read_batch` before any
FFI call: the result is the invalid-index error, the reader is unchanged,
and the event trace is empty (no transport fetch, no batch produced). -/
theorem c8_out_of_range_no_fetch (r : SasReader) (i : Nat)
    (h : i ≥ r.info.num_batches) :
    r.read_batch i =
      (.error ⟨outOfRangeMsg i (u32WrapSubOne r.info.num_batches)⟩, r, []) := by
  simp [SasReader.read_batch, h]

/-- Concrete reader used to witness C8. -/
def witnessReaderC8 : SasReader :=
  { transport := ⟨.engineError ⟨"boom"⟩, [], 0⟩,
    info := ⟨10, 2, 2, 5⟩,
    cached_schema := none,
    cached_arrow_field := none }

theorem c8_witness :
    5 ≥ witnessReaderC8.info.num_batches ∧
    witnessReaderC8.read_batch 5 =
      (.error ⟨outOfRangeMsg 5 (u32WrapSubOne witnessReaderC8.info.num_batches)⟩,
       witnessReaderC8, []) :=
  ⟨by decide, c8_out_of_range_no_fetch witnessReaderC8 5 (by decide)⟩

/-- C10: with `num_batches = 0` every index takes the out-of-range branch
and the maximum index embedded in the message is `0 - 1` in wrapping
32-bit arithmetic, i.e. `4294967295` (debug builds would panic on the
checked subtraction instead). -/
theorem c10_zero_batches_underflow (r : SasReader) (i : Nat)
    (h : r.info.num_batches = 0) :
    r.read_batch i = (.error ⟨outOfRangeMsg i 4294967295⟩, r, []) := by
  have hge : i ≥ r.info.num_batches := by omega
  have hmax : u32WrapSubOne r.info.num_batches = 4294967295 := by
    rw [h]
    norm_num [u32WrapSubOne]
  simp [SasReader.read_batch, hge, hmax]

/-- Concrete reader used to witness C10. -/
def witnessReaderC10 : SasReader :=
  { transport := ⟨.engineError ⟨"boom"⟩, [], 0⟩,
    info := ⟨0, 3, 0, 5⟩,
    cached_schema := none,
    cached_arrow_field := none }

theorem c10_witness :
    witnessReaderC10.info.num_batches = 0 ∧
    witnessReaderC10.read_batch 7 = (.error ⟨outOfRangeMsg 7 4294967295⟩, witnessReaderC10, []) :=
  ⟨rfl, c10_zero_batches_underflow witnessReaderC10 7 rfl⟩

/-- Every error produced by `arrow_dtype_to_polars` is the unsupported-type
error for the offending physical type. -/
lemma arrow_dtype_to_polars_error_msg (t : ArrowDataType) (e : PolarsErr)
    (h : arrow_dtype_to_polars t = .error e) :
    e.msg = "Unsupported SAS Arrow data type: " ++ t.debugFmt := by
  cases t <;> simp only [arrow_dtype_to_polars] at h
  case other nm =>
    simp only [Except.error.injEq] at h
    rw [← h]
  all_goals exact absurd h (by simp)

/-- If some struct field has a physical type hit by the wildcard arm, the
schema-map loop fails, and with an unsupported-type message. -/
lemma buildSchemaMap_fails_of_other :
    ∀ (flds : List ArrowField) (m : List (String × DataType)) (f : ArrowField) (tag : String),
      f ∈ flds → f.dtype = .other tag →
      ∃ e t, buildSchemaMap flds m = .error e ∧
        e.msg = "Unsupported SAS Arrow data type: " ++ ArrowDataType.debugFmt t
  | [], _, _, _, hf, _ => absurd hf (by simp)
  | g :: rest, m, f, tag, hf, htag => by
    cases hconv : arrow_dtype_to_polars g.dtype with
    | error e =>
      refine ⟨e, g.dtype, ?_, arrow_dtype_to_polars_error_msg g.dtype e hconv⟩
      simp [buildSchemaMap, hconv]
    | ok dt =>
      have hfr : f ∈ rest := by
        rcases List.mem_cons.mp hf with hfg | hfr
        · subst hfg
          rw [htag] at hconv
          simp [arrow_dtype_to_polars, ArrowDataType.debugFmt] at hconv
        · exact hfr
      have ih := buildSchemaMap_fails_of_other rest (btreeInsert g.name dt m) f tag hfr htag
      obtain ⟨e, t, hbuild, hmsg⟩ := ih
      refine ⟨e, t, ?_, hmsg⟩
      simp [buildSchemaMap, hconv, hbuild]

/-- C5 counterexample: `Int64` is a physical type outside the mapping table
named by the claim (UTF-8 text, 64-bit float, 32-bit day count, timestamp,
64-bit time-of-day), yet schema resolution maps it to the `Int64` semantic
type instead of failing with an unsupported-type error. -/
theorem c5_counterexample_int64 :
    arrow_dtype_to_polars ArrowDataType.int64 = Except.ok DataType.int64 := by
  rfl

/-- C5 (amended): a raw schema field whose physical type is outside the
code's mapping table (UTF-8 text narrow or wide, 64-bit integer, 64-bit
float, timestamp, 32-bit day count, 64-bit time-of-day) makes schema
resolution fail with the unsupported-type error — no fallback to a default
type — and the failed call caches nothing: the reader is returned
unchanged, with both caches still empty. -/
theorem c5_unsupported_type_rejected (r : SasReader) (nm : String)
    (fields : List ArrowField) (f : ArrowField) (tag : String)
    (hnone : r.cached_schema = none)
    (hfnone : r.cached_arrow_field = none)
    (hraw : r.transport.rawSchema = .fetched (.ok ⟨nm, .strct fields⟩))
    (hf : f ∈ fields) (htag : f.dtype = .other tag) :
    ∃ e t, r.get_schema_info = (.error e, r, [.fetchSchema, .release .topSchema]) ∧
      e.msg = "Unsupported SAS Arrow data type: " ++ ArrowDataType.debugFmt t ∧
      (r.get_schema_info).2.1.cached_schema = none ∧
      (r.get_schema_info).2.1.cached_arrow_field = none := by
  obtain ⟨e, t, hbuild, hmsg⟩ := buildSchemaMap_fails_of_other fields [] f tag hf htag
  have hconv : arrow_schema_to_polars_schema ⟨nm, .strct fields⟩ = .error e := by
    simp [arrow_schema_to_polars_schema, hbuild]
  have hrun : r.get_schema_info = (.error e, r, [.fetchSchema, .release .topSchema]) := by
    simp [SasReader.get_schema_info, hnone, hraw, hconv]
  exact ⟨e, t, hrun, hmsg, by rw [hrun]; exact hnone, by rw [hrun]; exact hfnone⟩

/-- Concrete reader used to witness C5: one column of an 8-bit integer
physical type, which the bridge does not support. -/
def witnessReaderC5 : SasReader :=
  { transport := ⟨.fetched (.ok ⟨"", .strct [⟨"x", .other "Int8"⟩]⟩), [], 0⟩,
    info := ⟨4, 1, 1, 4⟩,
    cached_schema := none,
    cached_arrow_field := none }

theorem c5_witness :
    witnessReaderC5.cached_schema = none ∧
    (⟨"x", .other "Int8"⟩ : ArrowField) ∈ [(⟨"x", .other "Int8"⟩ : ArrowField)] ∧
    ∃ e t, witnessReaderC5.get_schema_info =
        (.error e, witnessReaderC5, [.fetchSchema, .release .topSchema]) ∧
      e.msg = "Unsupported SAS Arrow data type: " ++ ArrowDataType.debugFmt t ∧
      (witnessReaderC5.get_schema_info).2.1.cached_schema = none ∧
      (witnessReaderC5.get_schema_info).2.1.cached_arrow_field = none :=
  ⟨rfl, by simp,
    c5_unsupported_type_rejected witnessReaderC5 "" [⟨"x", .other "Int8"⟩]
      ⟨"x", .other "Int8"⟩ "Int8" rfl rfl rfl (by simp) rfl⟩

/-- Concrete reader for C1: the file's physical column order is
`b` before `a`. -/
def physOrderReaderC1 : SasReader :=
  { transport := ⟨.fetched (.ok ⟨"", .strct [⟨"b", .float64⟩, ⟨"a", .float64⟩]⟩), [], 0⟩,
    info := ⟨0, 2, 0, 0⟩,
    cached_schema := none,
    cached_arrow_field := none }

/-- C1 counterexample: for a source file whose physical column order is
`[b, a]`, `get_schema_info` resolves successfully but returns the columns
as `[a, b]` — the `BTreeMap` accumulator orders them by name, so the
returned column order differs from the physical order of the raw struct
schema's children. -/
theorem c1_order_counterexample :
    (physOrderReaderC1.get_schema_info).1 =
      .ok [("a", DataType.float64), ("b", DataType.float64)] ∧
    schemaKeys [("a", DataType.float64), ("b", DataType.float64)] ≠
      ([⟨"b", ArrowDataType.float64⟩, ⟨"a", ArrowDataType.float64⟩] : List ArrowField).map
        ArrowField.name := by
  decide

/-- C1 (amended): for every reader whose raw schema resolves successfully,
the column schema returned by `get_schema_info` lists one entry per
distinct column name of the raw struct schema's children, ordered by
ascending lexicographic byte order of the names (the `BTreeMap` iteration
order) — not by the physical column order of the source file. -/
theorem c1_schema_sorted_by_name (r : SasReader) (nm : String)
    (fields : List ArrowField) (s : PolarsSchema)
    (hnone : r.cached_schema = none)
    (hraw : r.transport.rawSchema = .fetched (.ok ⟨nm, .strct fields⟩))
    (hok : (r.get_schema_info).1 = .ok s) :
    keysAscending (schemaKeys s) ∧
    (∀ x, x ∈ schemaKeys s ↔ x ∈ fields.map ArrowField.name) := by
  cases hbuild : buildSchemaMap fields [] with
  | error e =>
    have hconv : arrow_schema_to_polars_schema ⟨nm, .strct fields⟩ = .error e := by
      simp [arrow_schema_to_polars_schema, hbuild]
    have : (r.get_schema_info).1 = .error e := by
      simp [SasReader.get_schema_info, hnone, hraw, hconv]
    rw [this] at hok
    exact absurd hok (by simp)
  | ok m =>
    have hconv : arrow_schema_to_polars_schema ⟨nm, .strct fields⟩ =
        .ok (m, ⟨nm, .strct fields⟩) := by
      simp [arrow_schema_to_polars_schema, hbuild]
    have hrun : (r.get_schema_info).1 = .ok m := by
      simp [SasReader.get_schema_info, hnone, hraw, hconv]
    rw [hrun] at hok
    simp only [Except.ok.injEq] at hok
    cases hok
    have inv := buildSchemaMap_ok_invariant fields [] s hbuild
    refine ⟨inv.1 (by simp [schemaKeys, keysAscending]), fun x => ?_⟩
    rw [inv.2 x]
    simp [schemaKeys]

theorem c1_witness :
    physOrderReaderC1.cached_schema = none ∧
    physOrderReaderC1.transport.rawSchema =
      .fetched (.ok ⟨"", .strct [⟨"b", .float64⟩, ⟨"a", .float64⟩]⟩) ∧
    (physOrderReaderC1.get_schema_info).1 =
      .ok [("a", DataType.float64), ("b", DataType.float64)] ∧
    (keysAscending (schemaKeys [("a", DataType.float64), ("b", DataType.float64)]) ∧
      (∀ x, x ∈ schemaKeys [("a", DataType.float64), ("b", DataType.float64)] ↔
        x ∈ ([⟨"b", ArrowDataType.float64⟩, ⟨"a", ArrowDataType.float64⟩] : List ArrowField).map
          ArrowField.name)) :=
  ⟨rfl, rfl, by decide,
    c1_schema_sorted_by_name physOrderReaderC1 ""
      [⟨"b", .float64⟩, ⟨"a", .float64⟩]
      [("a", DataType.float64), ("b", DataType.float64)] rfl rfl (by decide)⟩

/-- C4: on a reader with an empty cache, a successful `get_schema_info`
performs exactly one physical schema fetch, memoizes both the semantic
schema and the raw type descriptor, and a second call returns the
structurally identical cached schema with no FFI activity at all; a failed
resolution leaves the reader (and hence its empty caches) unchanged. -/
theorem c4_schema_caching (r : SasReader) (hnone : r.cached_schema = none) :
    (∀ s, (r.get_schema_info).1 = .ok s →
      ((r.get_schema_info).2.2.count Event.fetchSchema = 1 ∧
       (r.get_schema_info).2.1.cached_schema = some s ∧
       (∃ fld, (r.get_schema_info).2.1.cached_arrow_field = some fld ∧
         arrow_schema_to_polars_schema fld = .ok (s, fld)) ∧
       (r.get_schema_info).2.1.get_schema_info = (.ok s, (r.get_schema_info).2.1, []))) ∧
    (∀ e, (r.get_schema_info).1 = .error e → (r.get_schema_info).2.1 = r) := by
  cases hraw : r.transport.rawSchema with
  | engineError e₀ =>
    have hrun : r.get_schema_info = (.error e₀, r, [.fetchSchema]) := by
      simp [SasReader.get_schema_info, hnone, hraw]
    rw [hrun]
    exact ⟨fun s hs => absurd hs (by simp), fun e he => rfl⟩
  | fetched imported =>
    cases imported with
    | error e₀ =>
      have hrun : r.get_schema_info = (.error e₀, r, [.fetchSchema, .release .topSchema]) := by
        simp [SasReader.get_schema_info, hnone, hraw]
      rw [hrun]
      exact ⟨fun s hs => absurd hs (by simp), fun e he => rfl⟩
    | ok fld =>
      cases hconv : arrow_schema_to_polars_schema fld with
      | error e₀ =>
        have hrun : r.get_schema_info = (.error e₀, r, [.fetchSchema, .release .topSchema]) := by
          simp [SasReader.get_schema_info, hnone, hraw, hconv]
        rw [hrun]
        exact ⟨fun s hs => absurd hs (by simp), fun e he => rfl⟩
      | ok p =>
        obtain ⟨ps, fld'⟩ := p
        have hsnd : fld' = fld := arrow_schema_to_polars_schema_snd fld (ps, fld') hconv
        subst hsnd
        have hrun : r.get_schema_info =
            (.ok ps, { r with cached_schema := some ps, cached_arrow_field := some fld' },
             [.fetchSchema, .release .topSchema]) := by
          simp [SasReader.get_schema_info, hnone, hraw, hconv]
        rw [hrun]
        constructor
        · intro s hs
          simp only [Except.ok.injEq] at hs
          cases hs
          refine ⟨rfl, rfl, ⟨fld', rfl, hconv⟩, ?_⟩
          exact get_schema_info_cached _ ps rfl
        · intro e he
          exact absurd he (by simp)

/-- Concrete reader used to witness C4: one supported float column. -/
def witnessReaderC4 : SasReader :=
  { transport := ⟨.fetched (.ok ⟨"", .strct [⟨"x", .float64⟩]⟩), [], 0⟩,
    info := ⟨3, 1, 1, 3⟩,
    cached_schema := none,
    cached_arrow_field := none }

theorem c4_witness :
    witnessReaderC4.cached_schema = none ∧
    (witnessReaderC4.get_schema_info).1 = .ok [("x", DataType.float64)] ∧
    ((witnessReaderC4.get_schema_info).2.2.count Event.fetchSchema = 1 ∧
     (witnessReaderC4.get_schema_info).2.1.cached_schema = some [("x", DataType.float64)] ∧
     (∃ fld, (witnessReaderC4.get_schema_info).2.1.cached_arrow_field = some fld ∧
       arrow_schema_to_polars_schema fld = .ok ([("x", DataType.float64)], fld)) ∧
     (witnessReaderC4.get_schema_info).2.1.get_schema_info =
       (.ok [("x", DataType.float64)], (witnessReaderC4.get_schema_info).2.1, [])) :=
  ⟨rfl, by decide,
    (c4_schema_caching witnessReaderC4 rfl).1 [("x", DataType.float64)] (by decide)⟩

/-- C9: while the stream is not finished, a failing `read_next_batch` is
classified purely by whether the error's display text contains the
substring of `endOfDataMarker`: if it does, the iterator silently
terminates (returns `none`), whatever the error actually was; otherwise
the error is surfaced, and in both cases the iterator enters the finished
state, from which every later call returns `none` with no transport
activity — so a surfaced error is surfaced exactly once. -/
theorem c9_endofdata_substring (it : SasBatchIterator) (e : PolarsErr)
    (r₁ : SasReader) (ev : List Event)
    (hfin : it.finished = false)
    (hres : it.reader.read_next_batch = (.error e, r₁, ev)) :
    it.next = ((if strContains e.msg endOfDataMarker = true then none else some (.error e)),
               ⟨r₁, true⟩, ev) ∧
    SasBatchIterator.next ⟨r₁, true⟩ = (none, ⟨r₁, true⟩, []) := by
  constructor
  · simp only [SasBatchIterator.next, hfin, Bool.false_eq_true, if_false, hres]
    by_cases h : strContains e.msg endOfDataMarker = true
    · simp [h]
    · have h' : strContains e.msg endOfDataMarker = false := by simpa using h
      simp [h']
  · simp [SasBatchIterator.next]

/-- Raw field for the C9 witness. -/
def witnessFieldC9 : ImportedField := ⟨"", .strct [⟨"x", .float64⟩]⟩

/-- An injected transport error that is not end-of-data but whose display
text happens to contain the marker substring. -/
def witnessErrC9 : PolarsErr := ⟨"read failed after End of data marker"⟩

/-- Fresh iterator over a transport whose first fetch fails with
`witnessErrC9`. -/
def witnessIterC9 : SasBatchIterator :=
  ⟨{ transport := ⟨.fetched (.ok witnessFieldC9), [.error witnessErrC9], 0⟩,
     info := ⟨1, 1, 1, 1⟩,
     cached_schema := some [("x", DataType.float64)],
     cached_arrow_field := some witnessFieldC9 }, false⟩

/-- The reader state after the failing fetch (cursor advanced). -/
def witnessReaderC9After : SasReader :=
  { witnessIterC9.reader with
    transport := { witnessIterC9.reader.transport with cursor := 1 } }

theorem c9_witness :
    witnessIterC9.finished = false ∧
    witnessIterC9.reader.read_next_batch =
      (.error witnessErrC9, witnessReaderC9After, [.fetchNext]) ∧
    (witnessIterC9.next =
        ((if strContains witnessErrC9.msg endOfDataMarker = true then none
          else some (.error witnessErrC9)),
         ⟨witnessReaderC9After, true⟩, [.fetchNext]) ∧
     SasBatchIterator.next ⟨witnessReaderC9After, true⟩ =
       (none, ⟨witnessReaderC9After, true⟩, [])) :=
  ⟨rfl, by decide,
    c9_endofdata_substring witnessIterC9 witnessErrC9 witnessReaderC9After [.fetchNext]
      rfl (by decide)⟩

/-- Raw field for the C3 evaluation. -/
def witnessFieldC3 : ImportedField := ⟨"", .strct [⟨"x", .float64⟩]⟩

/-- Reader with a resolved cache and one raw batch whose buffer id is 41. -/
def demoReaderC3 : SasReader :=
  { transport := ⟨.fetched (.ok witnessFieldC3), [.ok ⟨41, [[1, 2, 3]]⟩], 0⟩,
    info := ⟨3, 1, 1, 3⟩,
    cached_schema := some [("x", DataType.float64)],
    cached_arrow_field := some witnessFieldC3 }

/-- C3 evaluated at the failing input `read_batch 0`: the fetch succeeds
and the batch array's release callback fires exactly once, but the
per-batch raw schema descriptor also exported by
`sas_arrow_reader_get_batch_with_schema` is never released — its release
count on the obtaining function's trace is 0, not 1, contradicting the
claim that every transferred descriptor is released exactly once before
the obtaining function returns. -/
theorem c3_batch_schema_descriptor_leak :
    (demoReaderC3.read_batch 0).1 = .ok [("x", [1, 2, 3])] ∧
    (demoReaderC3.read_batch 0).2.2 = [.fetchByIndex 0, .release (.batchArray 41)] ∧
    ((demoReaderC3.read_batch 0).2.2).count (Event.release (BufferId.batchArray 41)) = 1 ∧
    ((demoReaderC3.read_batch 0).2.2).count (Event.release (BufferId.batchSchema 0)) = 0 := by
  refine ⟨by decide, by decide, by decide, by decide⟩

/-! ## Machinery for the streaming claims -/

lemma get?_eq_drop_head {α : Type} : ∀ (l : List α) (c : Nat), l.get? c = (l.drop c).head?
  | [], c => by cases c <;> simp
  | _ :: _, 0 => by simp
  | _ :: xs, c + 1 => by
    simp only [List.get?_cons_succ, List.drop_succ_cons]
    exact get?_eq_drop_head xs c

lemma drop_succ_eq_tail_drop {α : Type} : ∀ (l : List α) (c : Nat),
    l.drop (c + 1) = (l.drop c).tail
  | [], _ => by simp
  | _ :: _, 0 => by simp
  | _ :: xs, c + 1 => by
    simp only [List.drop_succ_cons]
    exact drop_succ_eq_tail_drop xs c

/-- The reader with both schema caches filled (the state produced by a
successful first `get_schema_info`). -/
def SasReader.withCaches (r : SasReader) (s : PolarsSchema) (field : ImportedField) : SasReader :=
  { r with cached_schema := some s, cached_arrow_field := some field }

/-- The reader state after one `read_next_batch` on a reader whose schema
resolution succeeds: caches filled and forward cursor advanced by one. -/
def SasReader.steppedState (r : SasReader) (s : PolarsSchema) (field : ImportedField) : SasReader :=
  { r with
    cached_schema := some s,
    cached_arrow_field := some field,
    transport := { r.transport with cursor := r.transport.cursor + 1 } }

lemma withCaches_self (r : SasReader) (s : PolarsSchema) (field : ImportedField)
    (h₁ : r.cached_schema = some s) (h₂ : r.cached_arrow_field = some field) :
    r.withCaches s field = r := by
  cases r
  simp_all [SasReader.withCaches]

/-- A finished iterator yields only `none`, leaves its state untouched and
performs no FFI activity, however often it is polled. -/
lemma runIter_finished (it : SasBatchIterator) (hfin : it.finished = true) :
    ∀ n, runIter it n = (List.replicate n none, it, [])
  | 0 => by simp [runIter]
  | n + 1 => by
    have hnext : it.next = (none, it, []) := by simp [SasBatchIterator.next, hfin]
    simp [runIter, hnext, runIter_finished it hfin n, List.replicate_succ]

lemma getElem?_eq_drop_head {α : Type} (l : List α) (c : Nat) : l[c]? = (l.drop c).head? := by
  rw [← List.get?_eq_getElem?]
  exact get?_eq_drop_head l c

/-- Core of the monotonic-exhaustion property: from any state whose schema
query succeeds (fresh or cached) and whose remaining stream consists of
`rest` successfully fetchable batches, polling the iterator
`rest.length + 1 + m` times yields the decoded batches in order, then
termination on the call after the last batch, then only termination. -/
lemma runIter_exhaustion (s : PolarsSchema) (field : ImportedField) (fields : List ArrowField)
    (hstruct : field.dtype = .strct fields) :
    ∀ (rest : List RawBatch) (m : Nat) (r : SasReader) (ev₀ : List Event),
      r.get_schema_info = (.ok s, r.withCaches s field, ev₀) →
      r.transport.batches.drop r.transport.cursor = rest.map .ok →
      (runIter ⟨r, false⟩ (rest.length + 1 + m)).1 =
        rest.map (fun b => some ((arrow_to_dataframe_with_field field b).1)) ++
          List.replicate (m + 1) none
  | [], m, r, ev₀, hsch, hdrop => by
    have hget : r.transport.batches[r.transport.cursor]? = none := by
      rw [getElem?_eq_drop_head, hdrop]
      simp
    have hrnb : r.read_next_batch =
        (.error ⟨"End of data reached"⟩, r.steppedState s field, ev₀ ++ [.fetchNext]) := by
      simp [SasReader.read_next_batch, hsch, hget, SasReader.withCaches, SasReader.steppedState]
    have hcontains : strContains (PolarsErr.mk "End of data reached").msg endOfDataMarker = true := by
      decide
    have hnext : SasBatchIterator.next ⟨r, false⟩ =
        (none, ⟨r.steppedState s field, true⟩, ev₀ ++ [.fetchNext]) := by
      simp [SasBatchIterator.next, hrnb, hcontains]
    have harith : List.length ([] : List RawBatch) + 1 + m = m + 1 := by
      simp
      omega
    rw [harith]
    simp only [runIter, hnext]
    rw [runIter_finished ⟨r.steppedState s field, true⟩ rfl m]
    simp [List.replicate_succ]
  | b :: rest', m, r, ev₀, hsch, hdrop => by
    have hget : r.transport.batches[r.transport.cursor]? = some (.ok b) := by
      rw [getElem?_eq_drop_head, hdrop]
      simp
    have hdrop' : r.transport.batches.drop (r.transport.cursor + 1) = rest'.map .ok := by
      rw [drop_succ_eq_tail_drop, hdrop]
      simp
    have hrnb : r.read_next_batch =
        ((arrow_to_dataframe_with_field field b).1, r.steppedState s field,
         ev₀ ++ [.fetchNext] ++ (arrow_to_dataframe_with_field field b).2) := by
      simp [SasReader.read_next_batch, hsch, hget, SasReader.withCaches, SasReader.steppedState]
    have hdf : (arrow_to_dataframe_with_field field b).1 = .ok (decodeStructBatch fields b) := by
      simp [arrow_to_dataframe_with_field, hstruct]
    have hnext : SasBatchIterator.next ⟨r, false⟩ =
        (some (.ok (decodeStructBatch fields b)), ⟨r.steppedState s field, false⟩,
         ev₀ ++ [.fetchNext] ++ (arrow_to_dataframe_with_field field b).2) := by
      rw [hdf] at hrnb
      simp [SasBatchIterator.next, hrnb]
    have hsch' : (r.steppedState s field).get_schema_info =
        (.ok s, (r.steppedState s field).withCaches s field, []) := by
      rw [withCaches_self (r.steppedState s field) s field rfl rfl]
      exact get_schema_info_cached _ s rfl
    have hdropS : (r.steppedState s field).transport.batches.drop
        (r.steppedState s field).transport.cursor = rest'.map .ok := by
      simpa [SasReader.steppedState] using hdrop'
    have ih := runIter_exhaustion s field fields hstruct rest' m (r.steppedState s field) []
      hsch' hdropS
    have harith : List.length (b :: rest') + 1 + m = (rest'.length + 1 + m) + 1 := by
      simp [List.length_cons]
      omega
    rw [harith]
    simp only [runIter, hnext]
    rcases hrun : runIter ⟨r.steppedState s field, false⟩ (rest'.length + 1 + m) with ⟨os, it₂, evs⟩
    rw [hrun] at ih
    simp only at ih
    simp [hrun, ih, hdf]

/-- C2: for a fresh stream iterator over a reader whose transport holds `N`
fetchable batches and a resolvable struct schema, the first `N` calls to
`next` return the successively decoded batches as `some (ok _)`, the
`(N+1)`-th call returns `none` (the engine's end-of-data is never surfaced
as an error), every further call also returns `none`, and any call made in
the `Finished` state returns `none` immediately with no transport activity
at all. -/
theorem c2_monotonic_exhaustion (r₀ : SasReader) (field : ImportedField)
    (fields : List ArrowField) (s : PolarsSchema) (rbs : List RawBatch) (m : Nat)
    (hstruct : field.dtype = .strct fields)
    (hraw : r₀.transport.rawSchema = .fetched (.ok field))
    (hres : arrow_schema_to_polars_schema field = .ok (s, field))
    (hbatches : r₀.transport.batches = rbs.map .ok)
    (hcursor : r₀.transport.cursor = 0)
    (hnone : r₀.cached_schema = none) :
    (runIter ⟨r₀, false⟩ (rbs.length + 1 + m)).1 =
      rbs.map (fun b => some ((arrow_to_dataframe_with_field field b).1)) ++
        List.replicate (m + 1) none ∧
    (∀ b, b ∈ rbs → (arrow_to_dataframe_with_field field b).1 =
      .ok (decodeStructBatch fields b)) ∧
    (∀ it : SasBatchIterator, it.finished = true → it.next = (none, it, [])) := by
  refine ⟨?_, ?_, ?_⟩
  · have hsch : r₀.get_schema_info =
        (.ok s, r₀.withCaches s field, [.fetchSchema, .release .topSchema]) := by
      simp [SasReader.get_schema_info, hnone, hraw, hres, SasReader.withCaches]
    have hdrop : r₀.transport.batches.drop r₀.transport.cursor = rbs.map .ok := by
      rw [hcursor, hbatches]
      simp
    exact runIter_exhaustion s field fields hstruct rbs m r₀
      [.fetchSchema, .release .topSchema] hsch hdrop
  · intro b _
    simp [arrow_to_dataframe_with_field, hstruct]
  · intro it hfin
    simp [SasBatchIterator.next, hfin]

/-- The raw struct field used by the C2 witness. -/
def witnessFieldC2 : ImportedField := ⟨"", .strct [⟨"x", .float64⟩]⟩

/-- Two raw batches for the C2 witness. -/
def witnessBatchesC2 : List RawBatch := [⟨1, [[10]]⟩, ⟨2, [[20, 21]]⟩]

/-- Fresh reader over the C2 witness transport. -/
def witnessReaderC2 : SasReader :=
  { transport := ⟨.fetched (.ok witnessFieldC2), witnessBatchesC2.map .ok, 0⟩,
    info := ⟨3, 1, 2, 2⟩,
    cached_schema := none,
    cached_arrow_field := none }

theorem c2_witness :
    witnessFieldC2.dtype = .strct [⟨"x", .float64⟩] ∧
    arrow_schema_to_polars_schema witnessFieldC2 =
      .ok ([("x", DataType.float64)], witnessFieldC2) ∧
    ((runIter ⟨witnessReaderC2, false⟩ (witnessBatchesC2.length + 1 + 1)).1 =
      witnessBatchesC2.map
        (fun b => some ((arrow_to_dataframe_with_field witnessFieldC2 b).1)) ++
        List.replicate (1 + 1) none ∧
     (∀ b, b ∈ witnessBatchesC2 → (arrow_to_dataframe_with_field witnessFieldC2 b).1 =
       .ok (decodeStructBatch [⟨"x", .float64⟩] b)) ∧
     (∀ it : SasBatchIterator, it.finished = true → it.next = (none, it, []))) :=
  ⟨rfl, by decide,
    c2_monotonic_exhaustion witnessReaderC2 witnessFieldC2 [⟨"x", .float64⟩]
      [("x", DataType.float64)] witnessBatchesC2 1 rfl rfl (by decide) rfl rfl rfl⟩

/-- The result of the `(i+1)`-th sequential `read_next_batch` from a state
whose schema query succeeds: the decode (with the cached field) of the
batch at offset `i` from the current cursor.  Intervening calls advance
the cursor unconditionally, so only the `i`-th underlying element needs to
be fetchable. -/
lemma readNextN_nth (s : PolarsSchema) (field : ImportedField) :
    ∀ (i : Nat) (r : SasReader) (rbs : List RawBatch) (b : RawBatch) (ev₀ : List Event),
      r.get_schema_info = (.ok s, r.withCaches s field, ev₀) →
      r.transport.batches = rbs.map .ok →
      rbs[r.transport.cursor + i]? = some b →
      (readNextN r i).1 = (arrow_to_dataframe_with_field field b).1
  | 0, r, rbs, b, ev₀, hsch, hbat, hb => by
    have hget : r.transport.batches[r.transport.cursor]? = some (.ok b) := by
      simp only [Nat.add_zero] at hb
      rw [hbat, List.getElem?_map, hb]
      rfl
    have hrnb : r.read_next_batch =
        ((arrow_to_dataframe_with_field field b).1, r.steppedState s field,
         ev₀ ++ [.fetchNext] ++ (arrow_to_dataframe_with_field field b).2) := by
      simp [SasReader.read_next_batch, hsch, hget, SasReader.withCaches, SasReader.steppedState]
    simp [readNextN, hrnb]
  | i + 1, r, rbs, b, ev₀, hsch, hbat, hb => by
    have hstate : (r.read_next_batch).2.1 = r.steppedState s field := by
      cases hget : r.transport.batches[r.transport.cursor]? with
      | none =>
        simp [SasReader.read_next_batch, hsch, hget, SasReader.withCaches,
          SasReader.steppedState]
      | some x =>
        cases x <;>
          simp [SasReader.read_next_batch, hsch, hget, SasReader.withCaches,
            SasReader.steppedState]
    have hsch' : (r.steppedState s field).get_schema_info =
        (.ok s, (r.steppedState s field).withCaches s field, []) := by
      rw [withCaches_self (r.steppedState s field) s field rfl rfl]
      exact get_schema_info_cached _ s rfl
    have hbat' : (r.steppedState s field).transport.batches = rbs.map .ok := by
      simpa [SasReader.steppedState] using hbat
    have hb' : rbs[(r.steppedState s field).transport.cursor + i]? = some b := by
      have hc : (r.steppedState s field).transport.cursor = r.transport.cursor + 1 := rfl
      rw [hc, show r.transport.cursor + 1 + i = r.transport.cursor + (i + 1) from by omega]
      exact hb
    have ih := readNextN_nth s field i (r.steppedState s field) rbs b [] hsch' hbat' hb'
    have hred : readNextN r (i + 1) = readNextN (r.read_next_batch).2.1 i := rfl
    rw [hred, hstate]
    exact ih

/-- C6: for a valid batch index `i`, random access `read_batch i` and the
`(i+1)`-th result of sequential streaming via `read_next_batch` from a
reset cursor decode the same underlying batch with the same cached schema,
and therefore agree. -/
theorem c6_random_access_stream_equiv (r₀ : SasReader) (field : ImportedField)
    (fields : List ArrowField) (s : PolarsSchema) (rbs : List RawBatch)
    (i : Nat) (b : RawBatch)
    (hstruct : field.dtype = .strct fields)
    (hraw : r₀.transport.rawSchema = .fetched (.ok field))
    (hres : arrow_schema_to_polars_schema field = .ok (s, field))
    (hbatches : r₀.transport.batches = rbs.map .ok)
    (hnone : r₀.cached_schema = none)
    (hnb : r₀.info.num_batches = rbs.length)
    (hb : rbs[i]? = some b) :
    (r₀.read_batch i).1 = (readNextN r₀.reset i).1 ∧
    (r₀.read_batch i).1 = .ok (decodeStructBatch fields b) := by
  have hi : i < rbs.length := by
    by_contra hlt
    push_neg at hlt
    rw [List.getElem?_eq_none (by omega)] at hb
    exact absurd hb (by simp)
  have hnotge : ¬ (i ≥ r₀.info.num_batches) := by omega
  have hsch : r₀.get_schema_info =
      (.ok s, r₀.withCaches s field, [.fetchSchema, .release .topSchema]) := by
    simp [SasReader.get_schema_info, hnone, hraw, hres, SasReader.withCaches]
  have hget : r₀.transport.batches[i]? = some (.ok b) := by
    rw [hbatches, List.getElem?_map, hb]
    rfl
  have hlhs : (r₀.read_batch i).1 = (arrow_to_dataframe_with_field field b).1 := by
    simp [SasReader.read_batch, hnotge, hsch, hget, SasReader.withCaches]
  have hschR : r₀.reset.get_schema_info =
      (.ok s, (r₀.reset).withCaches s field, [.fetchSchema, .release .topSchema]) := by
    simp [SasReader.get_schema_info, SasReader.reset, hnone, hraw, hres, SasReader.withCaches]
  have hbatR : r₀.reset.transport.batches = rbs.map .ok := by
    simpa [SasReader.reset] using hbatches
  have hbR : rbs[(r₀.reset).transport.cursor + i]? = some b := by
    have hc : (r₀.reset).transport.cursor = 0 := rfl
    rw [hc, Nat.zero_add]
    exact hb
  have hrhs := readNextN_nth s field i r₀.reset rbs b [.fetchSchema, .release .topSchema]
    hschR hbatR hbR
  constructor
  · rw [hlhs, hrhs]
  · rw [hlhs]
    simp [arrow_to_dataframe_with_field, hstruct]

/-- The raw struct field used by the C6 witness. -/
def witnessFieldC6 : ImportedField := ⟨"", .strct [⟨"y", .utf8⟩]⟩

/-- Three raw batches for the C6 witness. -/
def witnessBatchesC6 : List RawBatch := [⟨5, [[1]]⟩, ⟨6, [[2]]⟩, ⟨7, [[3]]⟩]

/-- Fresh reader over the C6 witness transport. -/
def witnessReaderC6 : SasReader :=
  { transport := ⟨.fetched (.ok witnessFieldC6), witnessBatchesC6.map .ok, 0⟩,
    info := ⟨3, 1, 3, 1⟩,
    cached_schema := none,
    cached_arrow_field := none }

theorem c6_witness :
    witnessBatchesC6[1]? = some ⟨6, [[2]]⟩ ∧
    ((witnessReaderC6.read_batch 1).1 = (readNextN witnessReaderC6.reset 1).1 ∧
     (witnessReaderC6.read_batch 1).1 =
       .ok (decodeStructBatch [⟨"y", .utf8⟩] ⟨6, [[2]]⟩)) :=
  ⟨by decide,
    c6_random_access_stream_equiv witnessReaderC6 witnessFieldC6 [⟨"y", .utf8⟩]
      [("y", DataType.string)] witnessBatchesC6 1 ⟨6, [[2]]⟩
      rfl rfl (by decide) rfl rfl rfl (by decide)⟩
